import Mathlib

/-!
Verification of the Atari wrapper chain of `gymu`
(`src/gymu/wrappers/atari/__init__.py`).

The inner simulation engine is external to the repository; we model it as an
abstract deterministic machine over a state type `σ` exposing the contract the
wrappers consume: `step : σ → action → (next, obs, reward, done, info)`,
`reset : σ → (next, obs)`, `lives : σ → Nat` (the `ale.lives()` introspection),
plus the action-meaning list read at construction time.  Observations are
fixed-shape numeric arrays, modelled as `List Int`; rewards are floating point,
modelled as `Rat`; `info` is an opaque token.  Each Python wrapper method
becomes a pure Lean function threading the wrapper's mutable fields and the
inner engine state explicitly.
-/

namespace Gymu

/-- Observations: a raw engine pixel buffer, modelled as a flat numeric array. -/
abbrev Obs := List Int

/-- Actions are integer indices into the engine's action set. -/
abbrev Action := Nat

/-- The auxiliary `info` mapping, opaque to every wrapper here. -/
abbrev Info := Nat

/-- Result of a single inner `step` call: successor engine state together with
the `(observation, reward, done, info)` tuple of the gym step contract. -/
structure StepOut (σ : Type) where
  next : σ
  obs : Obs
  reward : Rat
  done : Bool
  info : Info
deriving DecidableEq

/-- The inner environment contract consumed by every wrapper (spec §6):
deterministic `step`/`reset` over an explicit state `σ`, the `ale.lives()`
counter, and the action-meaning list. -/
structure InnerEnv (σ : Type) where
  step : σ → Action → StepOut σ
  reset : σ → σ × Obs
  lives : σ → Nat
  actionMeanings : List String

/-- Replace the reward component of every inner step, leaving everything else
(observations, done flags, info, reset behaviour, lives) unchanged.  Used to
express that reset sequences discard inner rewards. -/
def rewardReplace {σ : Type} (E : InnerEnv σ) (f : σ → Action → Rat) : InnerEnv σ :=
  { E with step := fun s a => { E.step s a with reward := f s a } }

/-! ## EpisodicLifeEnv -/

namespace EpisodicLifeEnv

/-- The wrapper's mutable fields: `self.lives` and `self.was_real_done`. -/
structure State where
  lives : Nat
  was_real_done : Bool
deriving DecidableEq

/-- `EpisodicLifeEnv.__init__`: `self.lives = 0; self.was_real_done = True`. -/
def init : State := ⟨0, true⟩

/-- Result of the wrapper's `step`: inner engine state, updated wrapper fields,
and the returned `(obs, reward, done, info)`. -/
structure StepResult (σ : Type) where
  env : σ
  wrapper : State
  obs : Obs
  reward : Rat
  done : Bool
  info : Info

/-- `EpisodicLifeEnv.step`:
```
obs, reward, done, info = self.env.step(action)
self.was_real_done = done
lives = self.env.unwrapped.ale.lives()
if 0 < lives < self.lives:
    done = True
self.lives = lives
return obs, reward, done, info
``` -/
def step {σ : Type} (E : InnerEnv σ) (s : σ) (w : State) (a : Action) : StepResult σ :=
  let r := E.step s a
  let was_real_done := r.done
  let lives := E.lives r.next
  let done := if 0 < lives ∧ lives < w.lives then true else r.done
  ⟨r.next, ⟨lives, was_real_done⟩, r.obs, r.reward, done, r.info⟩

/-- `EpisodicLifeEnv.reset`:
```
if self.was_real_done:
    obs = self.env.reset(**kwargs)
else:
    obs, _, _, _ = self.env.step(0)
self.lives = self.env.unwrapped.ale.lives()
return obs
``` -/
def reset {σ : Type} (E : InnerEnv σ) (s : σ) (w : State) : σ × State × Obs :=
  if w.was_real_done then
    let (s1, o) := E.reset s
    (s1, ⟨E.lives s1, w.was_real_done⟩, o)
  else
    let r := E.step s 0
    (r.next, ⟨E.lives r.next, w.was_real_done⟩, r.obs)

end EpisodicLifeEnv

/-! ## NoopResetEnv -/

namespace NoopResetEnv

/-- One observable event of the no-op reset loop: an inner `step(0)` with its
done flag, or an inner `reset` issued because that step ended the episode. -/
inductive Ev where
  | stepped (done : Bool)
  | innerReset
deriving DecidableEq

/-- Whether an event is an inner no-op step. -/
def Ev.isStep : Ev → Bool
  | .stepped _ => true
  | .innerReset => false

/-- Number of inner no-op steps in an event trace. -/
def stepCount (evs : List Ev) : Nat := (evs.filter Ev.isStep).length

/-- `NoopResetEnv.__init__` assertion:
`assert env.unwrapped.get_action_meanings()[0] == 'NOOP'`. -/
def initOk (actionMeanings : List String) : Bool :=
  actionMeanings.get? 0 == some "NOOP"

/-- The body of `NoopResetEnv.reset`'s loop:
```
for _ in range(noops):
    obs, _, done, _ = self.env.step(self.noop_action)
    if done:
        obs = self.env.reset(**kwargs)
```
threading the running `obs` variable (initially `None`) and recording the
event trace. -/
def loop {σ : Type} (E : InnerEnv σ) : σ → Option Obs → Nat → σ × Option Obs × List Ev
  | s, obs, 0 => (s, obs, [])
  | s, _, n + 1 =>
    let r := E.step s 0
    if r.done then
      let t := loop E (E.reset r.next).1 (some (E.reset r.next).2) n
      (t.1, t.2.1, Ev.stepped true :: Ev.innerReset :: t.2.2)
    else
      let t := loop E r.next (some r.obs) n
      (t.1, t.2.1, Ev.stepped false :: t.2.2)

/-- `NoopResetEnv.reset`: inner reset, then `noops` no-op steps where `noops`
is `override_num_noops` if set, else the `np_random.randint(1, noop_max + 1)`
sample (passed here as `sample`); `assert noops > 0` is modelled by returning
`none` on failure. -/
def reset {σ : Type} (E : InnerEnv σ) (s : σ) (override_num_noops : Option Nat)
    (sample : Nat) : Option (σ × Option Obs × List Ev) :=
  let s1 := (E.reset s).1
  let noops := match override_num_noops with
    | some k => k
    | none => sample
  if noops > 0 then some (loop E s1 none noops) else none

end NoopResetEnv

/-! ## FireResetEnv -/

namespace FireResetEnv

/-- `FireResetEnv.__init__` assertions:
```
assert env.unwrapped.get_action_meanings()[1] == 'FIRE'
assert len(env.unwrapped.get_action_meanings()) >= 3
```
(indexing a list with fewer than 2 entries also fails in Python; `get?`
returning `none` models that failure). -/
def initOk (actionMeanings : List String) : Bool :=
  (actionMeanings.get? 1 == some "FIRE") && decide (3 ≤ actionMeanings.length)

/-- `FireResetEnv.reset`:
```
self.env.reset(**kwargs)
obs, _, done, _ = self.env.step(1)
if done:
    self.env.reset(**kwargs)
obs, _, done, _ = self.env.step(2)
if done:
    self.env.reset(**kwargs)
return obs
``` -/
def reset {σ : Type} (E : InnerEnv σ) (s : σ) : σ × Obs :=
  let s1 := (E.reset s).1
  let r1 := E.step s1 1
  let s2 := if r1.done then (E.reset r1.next).1 else r1.next
  let r2 := E.step s2 2
  let s3 := if r2.done then (E.reset r2.next).1 else r2.next
  (s3, r2.obs)

end FireResetEnv

/-! ## MaxAndSkipEnv -/

namespace MaxAndSkipEnv

/-- The two-slot max-pool buffer `self._obs_buffer`. -/
structure Buffer where
  slot0 : Obs
  slot1 : Obs
deriving DecidableEq

/-- `self._obs_buffer.max(axis=0)`: the element-wise maximum of the two
buffered frames. -/
def maxFrame (b : Buffer) : Obs := List.zipWith max b.slot0 b.slot1

/-- Outcome of the repeat loop: engine state, buffer, accumulated reward, the
`done`/`info` of the last inner step (`none` if the loop body never ran —
Python's initial `done = None` and unbound `info`), and the number of inner
steps executed. -/
structure LoopOut (σ : Type) where
  env : σ
  buffer : Buffer
  total_reward : Rat
  done : Option Bool
  info : Option Info
  count : Nat
deriving DecidableEq

/-- The repeat loop of `MaxAndSkipEnv.step`:
```
for i in range(self._skip):
    obs, reward, done, info = self.env.step(action)
    if i == self._skip - 2:
        self._obs_buffer[0] = obs
    if i == self._skip - 1:
        self._obs_buffer[1] = obs
    total_reward += reward
    if done:
        break
```
`rem` counts the iterations remaining (initially `skip`) and `i` is the
current loop index (initially 0), so `rem + i = skip` throughout. -/
def loop {σ : Type} (E : InnerEnv σ) (a : Action) (skip : Nat) :
    Nat → Nat → σ → Buffer → Rat → Option Bool → Option Info → LoopOut σ
  | 0, i, s, buf, total, done, info => ⟨s, buf, total, done, info, i⟩
  | rem + 1, i, s, buf, total, _, _ =>
    let r := E.step s a
    let buf0 := if i = skip - 2 then { buf with slot0 := r.obs } else buf
    let buf1 := if i = skip - 1 then { buf0 with slot1 := r.obs } else buf0
    let total1 := total + r.reward
    if r.done then ⟨r.next, buf1, total1, some true, some r.info, i + 1⟩
    else loop E a skip rem (i + 1) r.next buf1 total1 (some r.done) (some r.info)

/-- Result of `MaxAndSkipEnv.step`: the loop outcome together with the
returned observation `max_frame`. -/
structure StepResult (σ : Type) where
  env : σ
  buffer : Buffer
  obs : Obs
  total_reward : Rat
  done : Option Bool
  info : Option Info
  count : Nat

/-- `MaxAndSkipEnv.step`: run the repeat loop from `total_reward = 0.0`,
`done = None`, then return the element-wise maximum of the two buffer slots
together with the summed reward and the last `done`/`info`. -/
def step {σ : Type} (E : InnerEnv σ) (skip : Nat) (s : σ) (buf : Buffer) (a : Action) :
    StepResult σ :=
  let t := loop E a skip skip 0 s buf 0 none none
  ⟨t.env, t.buffer, maxFrame t.buffer, t.total_reward, t.done, t.info, t.count⟩

end MaxAndSkipEnv

/-! ## ClipRewardEnv -/

namespace ClipRewardEnv

/-- `np.sign`: +1 on positives, -1 on negatives, 0 at zero. -/
def npSign (r : Rat) : Rat := if 0 < r then 1 else if r < 0 then -1 else 0

/-- `ClipRewardEnv.reward`: `return np.sign(reward)`. -/
def reward (r : Rat) : Rat := npSign r

/-- The gym `RewardWrapper` step contract: the inner step result with only the
reward component passed through `reward`. -/
def step {σ : Type} (E : InnerEnv σ) (s : σ) (a : Action) : StepOut σ :=
  let r := E.step s a
  { r with reward := reward r.reward }

end ClipRewardEnv

/-! ## wrap_atari -/

/-- One stage of the wrapper chain built by `wrap_atari`, innermost first. -/
inductive Stage where
  | noopReset (noop_max : Nat)
  | maxAndSkip (skip : Nat)
  | episodicLife
  | fireReset
  | grey (w0 w1 w2 : Rat)
  | resize (width height channels : Nat)
  | chw
  | divide (d : Nat)
  | clipReward
  | stack (n : Nat) (dim : Nat)
deriving DecidableEq

/-- `wrap_atari(env, episode_life, clip_rewards, frame_stack)` modelled as the
list of wrapper stages it applies, innermost first:
```
assert 'NoFrameskip' in env.spec.id
env = NoopResetEnv(env, noop_max=30)
env = MaxAndSkipEnv(env, skip=4)
if episode_life:
    env = EpisodicLifeEnv(env)
if 'FIRE' in env.unwrapped.get_action_meanings():
    env = FireResetEnv(env)
env = image(env).grey((1/3,1/3,1/3))
env = env.resize(84,84,1).CHW() / 255
if clip_rewards:
    env = ClipRewardEnv(env)
if frame_stack > 1:
    env = Stack(env, n=frame_stack, dim=0)
```
A failure of the top-level `assert`, of the `NOOP` assertion run inside
`NoopResetEnv.__init__`, or of the `FIRE`/length assertions run inside
`FireResetEnv.__init__` (only reached when the meanings contain `FIRE`) is
modelled by returning `none`. -/
def wrap_atari (specId : String) (actionMeanings : List String)
    (episode_life clip_rewards : Bool) (frame_stack : Nat) : Option (List Stage) :=
  if "NoFrameskip".data <:+: specId.data then
    if NoopResetEnv.initOk actionMeanings then
      if actionMeanings.contains "FIRE" && !FireResetEnv.initOk actionMeanings then
        none
      else
        some ([Stage.noopReset 30, Stage.maxAndSkip 4]
          ++ (if episode_life then [Stage.episodicLife] else [])
          ++ (if actionMeanings.contains "FIRE" then [Stage.fireReset] else [])
          ++ [Stage.grey (1/3) (1/3) (1/3), Stage.resize 84 84 1, Stage.chw,
            Stage.divide 255]
          ++ (if clip_rewards then [Stage.clipReward] else [])
          ++ (if frame_stack > 1 then [Stage.stack frame_stack 0] else []))
    else none
  else none

/-! ## A concrete scripted engine, used for witnesses -/

/-- A small deterministic engine over `Nat` states: stepping increments the
state, the episode reports done at state 5, reset returns to state 0, and the
lives counter decreases every second step. -/
def testEnv : InnerEnv Nat where
  step := fun s a => ⟨s + 1, [Int.ofNat (s + 1), Int.ofNat a], (s : Rat) + 1, decide (s + 1 = 5), s⟩
  reset := fun _ => (0, [0, 0])
  lives := fun s => 3 - s / 2
  actionMeanings := ["NOOP", "FIRE", "UP"]

end Gymu

open Gymu

/-- C1: `EpisodicLifeEnv.step` delegates to the inner step, stores the inner
done flag into `was_real_done`, returns the inner observation, reward and info
unchanged, returns done true iff the inner done was true or the new lives count
satisfies `0 < new_lives < previous self.lives`, and afterwards `self.lives`
equals the engine's current lives count. -/
theorem episodicLife_step_spec {σ : Type} (E : InnerEnv σ) (s : σ)
    (w : EpisodicLifeEnv.State) (a : Action) :
    let r := E.step s a
    let R := EpisodicLifeEnv.step E s w a
    R.env = r.next ∧
    R.obs = r.obs ∧
    R.reward = r.reward ∧
    R.info = r.info ∧
    R.wrapper.was_real_done = r.done ∧
    (R.done = true ↔ (r.done = true ∨ (0 < E.lives r.next ∧ E.lives r.next < w.lives))) ∧
    R.wrapper.lives = E.lives R.env := by
  refine ⟨rfl, rfl, rfl, rfl, rfl, ?_, rfl⟩
  show (if 0 < E.lives (E.step s a).next ∧ E.lives (E.step s a).next < w.lives
      then true else (E.step s a).done) = true ↔ _
  by_cases h : 0 < E.lives (E.step s a).next ∧ E.lives (E.step s a).next < w.lives
  · simp [h]
  · simp [h]

/-- C2: `EpisodicLifeEnv.reset` performs a genuine inner reset and returns its
observation when `was_real_done` is true; otherwise it performs exactly one
inner step with the no-op action 0 (no reset) and returns that step's
observation; in both cases `self.lives` is refreshed to the engine's current
lives counter. -/
theorem episodicLife_reset_spec {σ : Type} (E : InnerEnv σ) (s : σ)
    (w : EpisodicLifeEnv.State) :
    (w.was_real_done = true →
      EpisodicLifeEnv.reset E s w =
        ((E.reset s).1, ⟨E.lives (E.reset s).1, w.was_real_done⟩, (E.reset s).2)) ∧
    (w.was_real_done = false →
      EpisodicLifeEnv.reset E s w =
        ((E.step s 0).next, ⟨E.lives (E.step s 0).next, w.was_real_done⟩, (E.step s 0).obs)) ∧
    (EpisodicLifeEnv.reset E s w).2.1.lives = E.lives (EpisodicLifeEnv.reset E s w).1 := by
  refine ⟨fun h => ?_, fun h => ?_, ?_⟩
  · simp [EpisodicLifeEnv.reset, h]
  · simp [EpisodicLifeEnv.reset, h]
  · by_cases h : w.was_real_done <;> simp [EpisodicLifeEnv.reset, h]

/-- Witness for C2: evaluating both branch hypotheses of
`episodicLife_reset_spec` on the concrete scripted engine. -/
theorem episodicLife_reset_spec_witness :
    EpisodicLifeEnv.reset testEnv 2 ⟨3, true⟩ =
      ((testEnv.reset 2).1, ⟨testEnv.lives (testEnv.reset 2).1, true⟩, (testEnv.reset 2).2) ∧
    EpisodicLifeEnv.reset testEnv 2 ⟨3, false⟩ =
      ((testEnv.step 2 0).next, ⟨testEnv.lives (testEnv.step 2 0).next, false⟩,
        (testEnv.step 2 0).obs) := by
  exact ⟨(episodicLife_reset_spec testEnv 2 ⟨3, true⟩).1 rfl,
    (episodicLife_reset_spec testEnv 2 ⟨3, false⟩).2.1 rfl⟩

/-- C9: `EpisodicLifeEnv` is constructed with `lives = 0` and
`was_real_done = True`, so the first reset after construction always takes the
genuine-inner-reset path, regardless of the engine's state. -/
theorem episodicLife_init_first_reset {σ : Type} (E : InnerEnv σ) (s : σ) :
    EpisodicLifeEnv.init = ⟨0, true⟩ ∧
    EpisodicLifeEnv.reset E s EpisodicLifeEnv.init =
      ((E.reset s).1, ⟨E.lives (E.reset s).1, true⟩, (E.reset s).2) := by
  exact ⟨rfl, by simp [EpisodicLifeEnv.reset, EpisodicLifeEnv.init]⟩

/-- Unfolding equation for one iteration of the no-op loop. -/
theorem noopLoop_succ {σ : Type} (E : InnerEnv σ) (s : σ) (obs : Option Obs) (n : Nat) :
    NoopResetEnv.loop E s obs (n + 1) =
      if (E.step s 0).done then
        let t := NoopResetEnv.loop E (E.reset (E.step s 0).next).1
          (some (E.reset (E.step s 0).next).2) n
        (t.1, t.2.1, NoopResetEnv.Ev.stepped true :: NoopResetEnv.Ev.innerReset :: t.2.2)
      else
        let t := NoopResetEnv.loop E (E.step s 0).next (some (E.step s 0).obs) n
        (t.1, t.2.1, NoopResetEnv.Ev.stepped false :: t.2.2) := rfl

/-- The no-op loop performs exactly `n` inner steps. -/
theorem noopLoop_stepCount {σ : Type} (E : InnerEnv σ) (n : Nat) :
    ∀ (s : σ) (obs : Option Obs),
      NoopResetEnv.stepCount (NoopResetEnv.loop E s obs n).2.2 = n := by
  induction n with
  | zero => intro s obs; rfl
  | succ n ih =>
    intro s obs
    rw [noopLoop_succ]
    by_cases h : (E.step s 0).done
    · simp only [h, if_true]
      simp [NoopResetEnv.stepCount, List.filter_cons, NoopResetEnv.Ev.isStep]
      have := ih (E.reset (E.step s 0).next).1 (some (E.reset (E.step s 0).next).2)
      simpa [NoopResetEnv.stepCount] using this
    · simp only [h, if_false, Bool.false_eq_true]
      simp [NoopResetEnv.stepCount, List.filter_cons, NoopResetEnv.Ev.isStep]
      have := ih (E.step s 0).next (some (E.step s 0).obs)
      simpa [NoopResetEnv.stepCount] using this

/-- C4: for `noop_max ≥ 1` (the randint sample lies in `[1, noop_max]`), a
`NoopResetEnv.reset` with `override_num_noops` unset performs between 1 and
`noop_max` no-op inner steps; with `override_num_noops` set to a positive
value it performs exactly that many; in both cases the `assert noops > 0`
never fails (the reset never returns the assertion-failure value `none`). -/
theorem noopReset_count_spec {σ : Type} (E : InnerEnv σ) (s : σ) (noop_max sample : Nat)
    (h1 : 1 ≤ sample) (h2 : sample ≤ noop_max) :
    (∃ out, NoopResetEnv.reset E s none sample = some out ∧
        1 ≤ NoopResetEnv.stepCount out.2.2 ∧
        NoopResetEnv.stepCount out.2.2 ≤ noop_max) ∧
    (∀ k : Nat, 0 < k →
      ∃ out, NoopResetEnv.reset E s (some k) sample = some out ∧
        NoopResetEnv.stepCount out.2.2 = k) := by
  constructor
  · refine ⟨NoopResetEnv.loop E (E.reset s).1 none sample, ?_, ?_, ?_⟩
    · simp [NoopResetEnv.reset, Nat.lt_of_lt_of_le Nat.zero_lt_one h1]
    · rw [noopLoop_stepCount]; exact h1
    · rw [noopLoop_stepCount]; exact h2
  · intro k hk
    refine ⟨NoopResetEnv.loop E (E.reset s).1 none k, ?_, ?_⟩
    · simp [NoopResetEnv.reset, hk]
    · rw [noopLoop_stepCount]

/-- Witness for C4 at `noop_max = 3`, `sample = 2`, `override = 5` on the
scripted engine. -/
theorem noopReset_count_spec_witness :
    (1 ≤ 2 ∧ 2 ≤ 3) ∧
    (∃ out, NoopResetEnv.reset testEnv 0 none 2 = some out ∧
        1 ≤ NoopResetEnv.stepCount out.2.2 ∧ NoopResetEnv.stepCount out.2.2 ≤ 3) ∧
    (∃ out, NoopResetEnv.reset testEnv 0 (some 5) 2 = some out ∧
        NoopResetEnv.stepCount out.2.2 = 5) :=
  ⟨⟨by decide, by decide⟩,
    (noopReset_count_spec testEnv 0 3 2 (by decide) (by decide)).1,
    (noopReset_count_spec testEnv 0 3 2 (by decide) (by decide)).2 5 (by decide)⟩

/-- Whenever the no-op loop records a step that reported done, the very next
event is an inner reset. -/
theorem noopLoop_done_then_reset {σ : Type} (E : InnerEnv σ) (n : Nat) :
    ∀ (s : σ) (obs : Option Obs) (i : Nat),
      (NoopResetEnv.loop E s obs n).2.2.get? i = some (NoopResetEnv.Ev.stepped true) →
      (NoopResetEnv.loop E s obs n).2.2.get? (i + 1) = some NoopResetEnv.Ev.innerReset := by
  induction n with
  | zero => intro s obs i h; simp [NoopResetEnv.loop] at h
  | succ n ih =>
    intro s obs i h
    rw [noopLoop_succ] at h ⊢
    by_cases hd : (E.step s 0).done
    · simp only [hd, if_true] at h ⊢
      match i with
      | 0 => rfl
      | 1 => simp at h
      | i + 2 =>
        have h2 : (NoopResetEnv.loop E (E.reset (E.step s 0).next).1
            (some (E.reset (E.step s 0).next).2) n).2.2.get? i =
            some (NoopResetEnv.Ev.stepped true) := by simpa using h
        simpa using ih _ _ i h2
    · simp only [hd, if_false, Bool.false_eq_true] at h ⊢
      match i with
      | 0 => simp at h
      | i + 1 =>
        have h2 : (NoopResetEnv.loop E (E.step s 0).next
            (some (E.step s 0).obs) n).2.2.get? i =
            some (NoopResetEnv.Ev.stepped true) := by simpa using h
        simpa using ih _ _ i h2

/-- After at least one iteration, the observation carried by the no-op loop is
either an inner-reset observation or an inner-step observation whose done flag
was false. -/
theorem noopLoop_final_obs {σ : Type} (E : InnerEnv σ) (n : Nat) :
    ∀ (s : σ) (obs : Option Obs),
      (∃ t : σ, (NoopResetEnv.loop E s obs (n + 1)).2.1 = some (E.reset t).2) ∨
      (∃ t : σ, (E.step t 0).done = false ∧
        (NoopResetEnv.loop E s obs (n + 1)).2.1 = some (E.step t 0).obs) := by
  induction n with
  | zero =>
    intro s obs
    rw [noopLoop_succ]
    by_cases hd : (E.step s 0).done
    · exact Or.inl ⟨(E.step s 0).next, by simp [hd, NoopResetEnv.loop]⟩
    · exact Or.inr ⟨s, by simpa using hd, by simp [hd, NoopResetEnv.loop]⟩
  | succ n ih =>
    intro s obs
    rw [noopLoop_succ]
    by_cases hd : (E.step s 0).done
    · simpa [hd] using ih (E.reset (E.step s 0).next).1 (some (E.reset (E.step s 0).next).2)
    · simpa [hd] using ih (E.step s 0).next (some (E.step s 0).obs)

/-- C5: any successful `NoopResetEnv.reset` has an event trace in which every
done-reporting no-op step is immediately followed by an inner reset, and its
returned observation is either an inner-reset observation or an inner-step
observation whose done flag was false (a live state). -/
theorem noopReset_live_obs_spec {σ : Type} (E : InnerEnv σ) (s : σ)
    (override_num_noops : Option Nat) (sample : Nat)
    (out : σ × Option Obs × List NoopResetEnv.Ev)
    (h : NoopResetEnv.reset E s override_num_noops sample = some out) :
    (∀ i, out.2.2.get? i = some (NoopResetEnv.Ev.stepped true) →
        out.2.2.get? (i + 1) = some NoopResetEnv.Ev.innerReset) ∧
    ((∃ t : σ, out.2.1 = some (E.reset t).2) ∨
      (∃ t : σ, (E.step t 0).done = false ∧ out.2.1 = some (E.step t 0).obs)) := by
  simp only [NoopResetEnv.reset] at h
  set noops := (match override_num_noops with
    | some k => k
    | none => sample) with hnoops
  by_cases hp : noops > 0
  · rw [if_pos hp] at h
    obtain ⟨m, hm⟩ : ∃ m, noops = m + 1 := ⟨noops - 1, (Nat.succ_pred_eq_of_pos hp).symm⟩
    have hout : out = NoopResetEnv.loop E (E.reset s).1 none noops := by
      exact (Option.some_inj.mp h).symm
    subst hout
    rw [hm]
    exact ⟨fun i hi => noopLoop_done_then_reset E (m + 1) _ _ i hi,
      noopLoop_final_obs E m (E.reset s).1 none⟩
  · rw [if_neg hp] at h
    exact absurd h (by simp)

/-- Witness for C5: a concrete one-no-op reset on the scripted engine. -/
theorem noopReset_live_obs_spec_witness :
    NoopResetEnv.reset testEnv 0 none 1 =
      some (1, some [1, 0], [NoopResetEnv.Ev.stepped false]) ∧
    ((∀ i, ([NoopResetEnv.Ev.stepped false] : List NoopResetEnv.Ev).get? i =
          some (NoopResetEnv.Ev.stepped true) →
        ([NoopResetEnv.Ev.stepped false] : List NoopResetEnv.Ev).get? (i + 1) =
          some NoopResetEnv.Ev.innerReset) ∧
      ((∃ t : Nat, some [1, 0] = some (testEnv.reset t).2) ∨
        (∃ t : Nat, (testEnv.step t 0).done = false ∧
          some [1, 0] = some (testEnv.step t 0).obs))) :=
  ⟨by decide, noopReset_live_obs_spec testEnv 0 none 1
    (1, some [1, 0], [NoopResetEnv.Ev.stepped false]) (by decide)⟩

/-- C6: `FireResetEnv` construction fails iff the action-meaning list does not
have `FIRE` at index 1 or has fewer than 3 actions; a reset steps with action 1
from the freshly reset engine, resets again iff that step was done, steps with
action 2, resets again iff that step was done, and returns the action-2
observation regardless of any intermediate reset. -/
theorem fireReset_spec {σ : Type} (ms : List String) (E : InnerEnv σ) (s : σ) :
    (FireResetEnv.initOk ms = false ↔
      ¬ (ms.get? 1 = some "FIRE" ∧ 3 ≤ ms.length)) ∧
    ((FireResetEnv.reset E s).2 =
        (E.step (if (E.step (E.reset s).1 1).done
          then (E.reset (E.step (E.reset s).1 1).next).1
          else (E.step (E.reset s).1 1).next) 2).obs) ∧
    (∀ r2 : StepOut σ,
      r2 = E.step (if (E.step (E.reset s).1 1).done
          then (E.reset (E.step (E.reset s).1 1).next).1
          else (E.step (E.reset s).1 1).next) 2 →
      (r2.done = true → (FireResetEnv.reset E s).1 = (E.reset r2.next).1) ∧
      (r2.done = false → (FireResetEnv.reset E s).1 = r2.next)) := by
  refine ⟨?_, rfl, ?_⟩
  · simp [FireResetEnv.initOk, not_and_or, Decidable.not_not]
  · intro r2 hr2
    subst hr2
    constructor
    · intro hd
      simp [FireResetEnv.reset, hd]
    · intro hd
      simp [FireResetEnv.reset, hd]

/-- Witness for C6: the scripted engine's fire-reset sequence, where neither
the action-1 nor the action-2 step reports done. -/
theorem fireReset_spec_witness :
    (FireResetEnv.initOk ["NOOP", "UP"] = false ↔
      ¬ ((["NOOP", "UP"] : List String).get? 1 = some "FIRE" ∧
        3 ≤ (["NOOP", "UP"] : List String).length)) ∧
    (FireResetEnv.reset testEnv 3).1 = (testEnv.step 1 2).next := by
  refine ⟨(fireReset_spec ["NOOP", "UP"] testEnv 3).1, ?_⟩
  have h := ((fireReset_spec (σ := Nat) ["NOOP", "UP"] testEnv 3).2.2
    (testEnv.step (if (testEnv.step (testEnv.reset 3).1 1).done
      then (testEnv.reset (testEnv.step (testEnv.reset 3).1 1).next).1
      else (testEnv.step (testEnv.reset 3).1 1).next) 2) rfl).2
  have hd : (testEnv.step (if (testEnv.step (testEnv.reset 3).1 1).done
      then (testEnv.reset (testEnv.step (testEnv.reset 3).1 1).next).1
      else (testEnv.step (testEnv.reset 3).1 1).next) 2).done = false := by decide
  have := h hd
  simpa using this

/-- C3: `MaxAndSkipEnv.step` with `skip = 4` invokes the inner step at most 4
times with the same action, stopping immediately after the first inner done;
the returned reward is the sum of the executed inner rewards; buffer slot 0 is
overwritten with the observation at repeat index 2 and slot 1 with that at
index 3 when those indices are reached (otherwise they keep their old
contents); the returned observation is the element-wise maximum of the two
buffer slots — with no early done that of the 3rd and 4th raw frames, and a
done on the 2nd inner step yields exactly 2 inner steps and their summed
reward. -/
theorem maxAndSkip_step_spec {σ : Type} (E : InnerEnv σ) (s : σ)
    (buf : MaxAndSkipEnv.Buffer) (a : Action) :
    let r0 := E.step s a
    let r1 := E.step r0.next a
    let r2 := E.step r1.next a
    let r3 := E.step r2.next a
    let R := MaxAndSkipEnv.step E 4 s buf a
    R.count ≤ 4 ∧
    R.obs = List.zipWith max R.buffer.slot0 R.buffer.slot1 ∧
    (r0.done = true →
      R.count = 1 ∧ R.env = r0.next ∧ R.total_reward = r0.reward ∧ R.buffer = buf) ∧
    (r0.done = false → r1.done = true →
      R.count = 2 ∧ R.env = r1.next ∧ R.total_reward = r0.reward + r1.reward ∧
      R.buffer = buf) ∧
    (r0.done = false → r1.done = false → r2.done = true →
      R.count = 3 ∧ R.env = r2.next ∧
      R.total_reward = r0.reward + r1.reward + r2.reward ∧
      R.buffer.slot0 = r2.obs ∧ R.buffer.slot1 = buf.slot1) ∧
    (r0.done = false → r1.done = false → r2.done = false →
      R.count = 4 ∧ R.env = r3.next ∧
      R.total_reward = r0.reward + r1.reward + r2.reward + r3.reward ∧
      R.buffer.slot0 = r2.obs ∧ R.buffer.slot1 = r3.obs ∧
      R.obs = List.zipWith max r2.obs r3.obs) := by
  refine ⟨?_, ?_, ?_, ?_, ?_, ?_⟩
  · rcases h0 : (E.step s a).done
    · rcases h1 : (E.step (E.step s a).next a).done
      · rcases h2 : (E.step (E.step (E.step s a).next a).next a).done
        · rcases h3 : (E.step (E.step (E.step (E.step s a).next a).next a).next a).done <;>
            simp [MaxAndSkipEnv.step, MaxAndSkipEnv.loop, h0, h1, h2, h3]
        · simp [MaxAndSkipEnv.step, MaxAndSkipEnv.loop, h0, h1, h2]
      · simp [MaxAndSkipEnv.step, MaxAndSkipEnv.loop, h0, h1]
    · simp [MaxAndSkipEnv.step, MaxAndSkipEnv.loop, h0]
  · rcases h0 : (E.step s a).done
    · rcases h1 : (E.step (E.step s a).next a).done
      · rcases h2 : (E.step (E.step (E.step s a).next a).next a).done
        · rcases h3 : (E.step (E.step (E.step (E.step s a).next a).next a).next a).done <;>
            simp [MaxAndSkipEnv.step, MaxAndSkipEnv.loop, MaxAndSkipEnv.maxFrame, h0, h1, h2, h3]
        · simp [MaxAndSkipEnv.step, MaxAndSkipEnv.loop, MaxAndSkipEnv.maxFrame, h0, h1, h2]
      · simp [MaxAndSkipEnv.step, MaxAndSkipEnv.loop, MaxAndSkipEnv.maxFrame, h0, h1]
    · simp [MaxAndSkipEnv.step, MaxAndSkipEnv.loop, MaxAndSkipEnv.maxFrame, h0]
  · intro h0
    simp [MaxAndSkipEnv.step, MaxAndSkipEnv.loop, h0]
  · intro h0 h1
    simp [MaxAndSkipEnv.step, MaxAndSkipEnv.loop, h0, h1]
  · intro h0 h1 h2
    simp [MaxAndSkipEnv.step, MaxAndSkipEnv.loop, h0, h1, h2]
  · intro h0 h1 h2
    rcases h3 : (E.step (E.step (E.step (E.step s a).next a).next a).next a).done <;>
      simp [MaxAndSkipEnv.step, MaxAndSkipEnv.loop, MaxAndSkipEnv.maxFrame, h0, h1, h2, h3]

/-- Witness for C3: on the scripted engine from state 0, none of the four
repeated steps reports done, so 4 inner steps occur and the reward is the
4-step sum. -/
theorem maxAndSkip_step_spec_witness :
    (testEnv.step 0 0).done = false ∧
    (testEnv.step (testEnv.step 0 0).next 0).done = false ∧
    (testEnv.step (testEnv.step (testEnv.step 0 0).next 0).next 0).done = false ∧
    (MaxAndSkipEnv.step testEnv 4 0 ⟨[9, 9], [9, 9]⟩ 0).count = 4 ∧
    (MaxAndSkipEnv.step testEnv 4 0 ⟨[9, 9], [9, 9]⟩ 0).total_reward =
      (testEnv.step 0 0).reward + (testEnv.step (testEnv.step 0 0).next 0).reward +
      (testEnv.step (testEnv.step (testEnv.step 0 0).next 0).next 0).reward +
      (testEnv.step (testEnv.step (testEnv.step (testEnv.step 0 0).next 0).next 0).next 0).reward :=
  ⟨rfl, rfl, rfl,
    ((maxAndSkip_step_spec testEnv 0 ⟨[9, 9], [9, 9]⟩ 0).2.2.2.2.2 rfl rfl rfl).1,
    ((maxAndSkip_step_spec testEnv 0 ⟨[9, 9], [9, 9]⟩ 0).2.2.2.2.2 rfl rfl rfl).2.2.1⟩

/-- Success of the `NOOP` construction assertion, phrased over `get?`. -/
theorem noopInitOk_iff (ms : List String) :
    NoopResetEnv.initOk ms = true ↔ ms.get? 0 = some "NOOP" := by
  simp [NoopResetEnv.initOk]

/-- Success of the `FIRE` construction assertions, phrased over `get?`. -/
theorem fireInitOk_iff (ms : List String) :
    FireResetEnv.initOk ms = true ↔ (ms.get? 1 = some "FIRE" ∧ 3 ≤ ms.length) := by
  simp [FireResetEnv.initOk]

/-- Counterexample to C7 as stated: with a `NoFrameskip` identifier but `FIRE`
present away from index 1 of the action meanings, `wrap_atari` fails inside
the `FireResetEnv` construction it invokes instead of building the chain, so
containing the no-frameskip marker does not suffice for success. -/
theorem wrap_atari_claim_counterexample :
    ("NoFrameskip".data <:+: "BreakoutNoFrameskip-v4".data) ∧
    wrap_atari "BreakoutNoFrameskip-v4" ["NOOP", "UP", "FIRE"] false true 4 = none :=
  ⟨by decide, rfl⟩

/-- C7 (amended): `wrap_atari` succeeds iff the spec identifier contains
`NoFrameskip`, the action meanings have `NOOP` at index 0, and — whenever
they contain `FIRE` — `FIRE` is at index 1 with at least 3 actions (the
assertions of the constructors it runs); on success it builds exactly:
NoopReset(30), MaxAndSkip(4), EpisodicLife iff `episode_life`, FireReset iff
the action meanings contain `FIRE`, grey with equal per-channel weights,
resize to 84×84×1, channel-first reorder, division by 255, ClipReward iff
`clip_rewards`, and a leading-axis FrameStack of depth `frame_stack` iff
`frame_stack > 1`. -/
theorem wrap_atari_spec (specId : String) (ams : List String) (el cr : Bool) (fs : Nat) :
    ((wrap_atari specId ams el cr fs).isSome ↔
      ("NoFrameskip".data <:+: specId.data ∧ ams.get? 0 = some "NOOP" ∧
        (ams.contains "FIRE" = true → ams.get? 1 = some "FIRE" ∧ 3 ≤ ams.length))) ∧
    (∀ chain, wrap_atari specId ams el cr fs = some chain →
      chain = [Stage.noopReset 30, Stage.maxAndSkip 4]
          ++ (if el then [Stage.episodicLife] else [])
          ++ (if ams.contains "FIRE" then [Stage.fireReset] else [])
          ++ [Stage.grey (1/3) (1/3) (1/3), Stage.resize 84 84 1, Stage.chw,
            Stage.divide 255]
          ++ (if cr then [Stage.clipReward] else [])
          ++ (if 1 < fs then [Stage.stack fs 0] else []) ∧
      (Stage.episodicLife ∈ chain ↔ el = true) ∧
      (Stage.fireReset ∈ chain ↔ ams.contains "FIRE" = true) ∧
      (Stage.clipReward ∈ chain ↔ cr = true) ∧
      (∀ n, Stage.stack n 0 ∈ chain ↔ (1 < fs ∧ n = fs))) := by
  constructor
  · rw [wrap_atari]
    by_cases h1 : "NoFrameskip".data <:+: specId.data
    · rw [if_pos h1]
      by_cases h2 : NoopResetEnv.initOk ams = true
      · rw [if_pos h2]
        by_cases h3 : (ams.contains "FIRE" && !FireResetEnv.initOk ams) = true
        · rw [if_pos h3]
          rw [Bool.and_eq_true, Bool.not_eq_true'] at h3
          simp only [Option.isSome_none, Bool.false_eq_true, false_iff]
          intro hrhs
          have hfi := (fireInitOk_iff ams).mpr (hrhs.2.2 h3.1)
          rw [h3.2] at hfi
          cases hfi
        · rw [if_neg h3]
          simp only [Option.isSome_some, true_iff]
          refine ⟨h1, (noopInitOk_iff ams).mp h2, fun hf => ?_⟩
          rw [← fireInitOk_iff]
          by_contra hni
          rw [Bool.not_eq_true] at hni
          exact h3 (by rw [hf, hni]; rfl)
      · rw [if_neg h2]
        simp only [Option.isSome_none, Bool.false_eq_true, false_iff]
        intro hrhs
        exact h2 ((noopInitOk_iff ams).mpr hrhs.2.1)
    · rw [if_neg h1]
      simp only [Option.isSome_none, Bool.false_eq_true, false_iff]
      intro hrhs
      exact h1 hrhs.1
  · intro chain hc
    rw [wrap_atari] at hc
    by_cases h1 : "NoFrameskip".data <:+: specId.data
    · rw [if_pos h1] at hc
      by_cases h2 : NoopResetEnv.initOk ams = true
      · rw [if_pos h2] at hc
        by_cases h3 : (ams.contains "FIRE" && !FireResetEnv.initOk ams) = true
        · rw [if_pos h3] at hc
          cases hc
        · rw [if_neg h3] at hc
          have hchain := (Option.some_inj.mp hc).symm
          subst hchain
          refine ⟨rfl, ?_, ?_, ?_, ?_⟩
          all_goals
            rcases el <;> rcases cr <;> by_cases hf : ams.contains "FIRE" <;>
              by_cases hfs : 1 < fs <;>
              simp [hf, hfs, List.mem_append, and_comm]
      · rw [if_neg h2] at hc
        cases hc
    · rw [if_neg h1] at hc
      cases hc

/-- Witness for C7: a concrete chain with `episode_life = false`,
`clip_rewards = true`, `frame_stack = 4`, `NOOP` at index 0, `FIRE` at index
1 and a NoFrameskip identifier. -/
theorem wrap_atari_spec_witness :
    wrap_atari "BreakoutNoFrameskip-v4" ["NOOP", "FIRE", "UP"] false true 4 =
      some [Stage.noopReset 30, Stage.maxAndSkip 4, Stage.fireReset,
        Stage.grey (1/3) (1/3) (1/3), Stage.resize 84 84 1, Stage.chw, Stage.divide 255,
        Stage.clipReward, Stage.stack 4 0] ∧
    (Stage.episodicLife ∈ [Stage.noopReset 30, Stage.maxAndSkip 4, Stage.fireReset,
        Stage.grey (1/3) (1/3) (1/3), Stage.resize 84 84 1, Stage.chw, Stage.divide 255,
        Stage.clipReward, Stage.stack 4 0] ↔ False) := by
  have hchain : wrap_atari "BreakoutNoFrameskip-v4" ["NOOP", "FIRE", "UP"] false true 4 =
      some [Stage.noopReset 30, Stage.maxAndSkip 4, Stage.fireReset,
        Stage.grey (1/3) (1/3) (1/3), Stage.resize 84 84 1, Stage.chw, Stage.divide 255,
        Stage.clipReward, Stage.stack 4 0] := by
    rw [wrap_atari, if_pos (by decide), if_pos (by decide), if_neg (by decide)]
    rfl
  have h := (wrap_atari_spec "BreakoutNoFrameskip-v4" ["NOOP", "FIRE", "UP"] false true 4).2
    [Stage.noopReset 30, Stage.maxAndSkip 4, Stage.fireReset,
      Stage.grey (1/3) (1/3) (1/3), Stage.resize 84 84 1, Stage.chw, Stage.divide 255,
      Stage.clipReward, Stage.stack 4 0] hchain
  exact ⟨hchain, by rw [h.2.1]; simp⟩

/-- C8: `ClipRewardEnv.reward` returns the sign of the reward (+1 on
positives, -1 on negatives, 0 at zero; in particular 5.0 ↦ 1.0, -3.2 ↦ -1.0,
0.0 ↦ 0.0), and the `RewardWrapper` step changes only the reward component of
the inner step result. -/
theorem clipReward_spec (q : Rat) :
    (0 < q → ClipRewardEnv.reward q = 1) ∧
    (q < 0 → ClipRewardEnv.reward q = -1) ∧
    (q = 0 → ClipRewardEnv.reward q = 0) ∧
    ClipRewardEnv.reward 5 = 1 ∧
    ClipRewardEnv.reward (-3.2 : Rat) = -1 ∧
    ClipRewardEnv.reward 0 = 0 ∧
    (∀ {σ : Type} (E : InnerEnv σ) (s : σ) (a : Action),
      (ClipRewardEnv.step E s a).next = (E.step s a).next ∧
      (ClipRewardEnv.step E s a).obs = (E.step s a).obs ∧
      (ClipRewardEnv.step E s a).done = (E.step s a).done ∧
      (ClipRewardEnv.step E s a).info = (E.step s a).info ∧
      (ClipRewardEnv.step E s a).reward = ClipRewardEnv.reward (E.step s a).reward) := by
  refine ⟨?_, ?_, ?_, ?_, ?_, ?_, ?_⟩
  · intro h; simp [ClipRewardEnv.reward, ClipRewardEnv.npSign, h]
  · intro h; simp [ClipRewardEnv.reward, ClipRewardEnv.npSign, h, h.not_lt]
  · intro h; simp [ClipRewardEnv.reward, ClipRewardEnv.npSign, h]
  · norm_num [ClipRewardEnv.reward, ClipRewardEnv.npSign]
  · norm_num [ClipRewardEnv.reward, ClipRewardEnv.npSign]
  · norm_num [ClipRewardEnv.reward, ClipRewardEnv.npSign]
  · intro σ E s a
    exact ⟨rfl, rfl, rfl, rfl, rfl⟩

/-- Witness for C8: the sign transform evaluated at 5 and -3.2. -/
theorem clipReward_spec_witness :
    (0 < (5 : Rat)) ∧ ClipRewardEnv.reward 5 = 1 ∧
    ((-3.2 : Rat) < 0) ∧ ClipRewardEnv.reward (-3.2 : Rat) = -1 :=
  ⟨by norm_num, (clipReward_spec 5).1 (by norm_num), by norm_num,
    (clipReward_spec (-3.2 : Rat)).2.1 (by norm_num)⟩

/-- `rewardReplace` keeps the successor state of every inner step. -/
theorem rewardReplace_step_next {σ : Type} (E : InnerEnv σ) (f : σ → Action → Rat)
    (s : σ) (a : Action) : ((rewardReplace E f).step s a).next = (E.step s a).next := rfl

/-- `rewardReplace` keeps the observation of every inner step. -/
theorem rewardReplace_step_obs {σ : Type} (E : InnerEnv σ) (f : σ → Action → Rat)
    (s : σ) (a : Action) : ((rewardReplace E f).step s a).obs = (E.step s a).obs := rfl

/-- `rewardReplace` keeps the done flag of every inner step. -/
theorem rewardReplace_step_done {σ : Type} (E : InnerEnv σ) (f : σ → Action → Rat)
    (s : σ) (a : Action) : ((rewardReplace E f).step s a).done = (E.step s a).done := rfl

/-- `rewardReplace` keeps the info of every inner step. -/
theorem rewardReplace_step_info {σ : Type} (E : InnerEnv σ) (f : σ → Action → Rat)
    (s : σ) (a : Action) : ((rewardReplace E f).step s a).info = (E.step s a).info := rfl

/-- `rewardReplace` keeps the reset behaviour. -/
theorem rewardReplace_reset {σ : Type} (E : InnerEnv σ) (f : σ → Action → Rat) :
    (rewardReplace E f).reset = E.reset := rfl

/-- `rewardReplace` keeps the lives counter. -/
theorem rewardReplace_lives {σ : Type} (E : InnerEnv σ) (f : σ → Action → Rat) :
    (rewardReplace E f).lives = E.lives := rfl

/-- Replacing inner rewards does not change the no-op loop at all. -/
theorem noopLoop_rewardReplace {σ : Type} (E : InnerEnv σ) (f : σ → Action → Rat) (n : Nat) :
    ∀ (s : σ) (obs : Option Obs),
      NoopResetEnv.loop (rewardReplace E f) s obs n = NoopResetEnv.loop E s obs n := by
  induction n with
  | zero => intro s obs; rfl
  | succ n ih =>
    intro s obs
    rw [noopLoop_succ, noopLoop_succ]
    by_cases h : (E.step s 0).done
    · simp [rewardReplace_step_next, rewardReplace_step_done, rewardReplace_step_obs,
        rewardReplace_reset, h, ih]
    · simp [rewardReplace_step_next, rewardReplace_step_done, rewardReplace_step_obs,
        rewardReplace_reset, h, ih]

/-- C10: every reward produced by an inner step performed inside a reset
sequence is discarded and never reaches the caller: replacing every inner
reward changes nothing about the outcome of `NoopResetEnv.reset`,
`FireResetEnv.reset` or `EpisodicLifeEnv.reset`, and each of these returns
only an observation (no reward component in its result type). -/
theorem reset_discards_rewards {σ : Type} (E : InnerEnv σ) (f : σ → Action → Rat)
    (s : σ) (w : EpisodicLifeEnv.State) (override_num_noops : Option Nat) (sample : Nat) :
    NoopResetEnv.reset (rewardReplace E f) s override_num_noops sample =
      NoopResetEnv.reset E s override_num_noops sample ∧
    FireResetEnv.reset (rewardReplace E f) s = FireResetEnv.reset E s ∧
    EpisodicLifeEnv.reset (rewardReplace E f) s w = EpisodicLifeEnv.reset E s w := by
  refine ⟨?_, ?_, ?_⟩
  · simp [NoopResetEnv.reset, noopLoop_rewardReplace, rewardReplace_reset]
  · simp [FireResetEnv.reset, rewardReplace_step_next, rewardReplace_step_done,
      rewardReplace_step_obs, rewardReplace_reset]
  · by_cases h : w.was_real_done <;>
      simp [EpisodicLifeEnv.reset, h, rewardReplace_step_next, rewardReplace_step_done,
        rewardReplace_step_obs, rewardReplace_reset, rewardReplace_lives]
